import Mathlib

/-!
# localZipper: the name sanitizer, the manifest resolver and the handler loop

A shallow embedding of `localZipper.go`.

* Go strings are modelled by Lean `String` (a sequence of code points).  The
  regular expression `makeSafeFileName` is a single bracket expression, so it
  matches one code point at a time.
* The outside world is a record `Env`: what `redis.Do`, `json.Unmarshal`,
  `os.Open` and `http.Get` answer.  Go's `(value, err)` result pairs are kept as
  pairs of options where the code reads the value before testing `err`.
* The response is a record `ResponseWriter`: status, header, text body, the
  sequence of `zipWriter.CreateHeader` calls with the bytes copied into each,
  whether `zipWriter.Close` was reached, and whether the handler ended in a
  run-time panic (nil pointer dereference).
* Elements of the decoded manifest are non-nil descriptors.  Of `archive/zip` the
  embedding keeps what depends on the manifest: `CreateHeader` refuses a name
  longer than 65535 bytes.  The sink is taken to accept every write and an opened
  source to deliver all its bytes.
-/

namespace LocalZipper

/-! ## Name sanitizer -/

/-- Text between the brackets of the regexp literal on line 62 of the source,
character by character (twelve characters, two of them escapes). -/
def classText : String := "#<>:\"/\\|?*\\\\"

/-- Members of a bracket expression without ranges: a backslash followed by a
punctuation character stands for that character, any other character stands
for itself. -/
def parseClass : List Char → List Char
  | [] => []
  | '\\' :: c :: rest => c :: parseClass rest
  | c :: rest => c :: parseClass rest

/-- The compiled regexp `makeSafeFileName`, as the list of characters its
bracket expression matches. -/
def makeSafeFileName : List Char := parseClass classText.data

/-- Left-to-right scan of `regexp.ReplaceAllString` for a one-character class:
the matches are the single characters of the class, each is replaced by `repl`,
and the text between matches is copied. -/
def replaceAll (re : List Char) (repl : List Char) : List Char → List Char
  | [] => []
  | c :: cs => if c ∈ re then repl ++ replaceAll re repl cs else c :: replaceAll re repl cs

/-- The call `re.ReplaceAllString(src, repl)`. -/
def ReplaceAllString (re : List Char) (src repl : String) : String :=
  ⟨replaceAll re repl.data src.data⟩

/-- The expression `makeSafeFileName.ReplaceAllString(x, "")` used by the handler. -/
def sanitize (x : String) : String := ReplaceAllString makeSafeFileName x ""

/-- The ten characters the specification lists as disallowed. -/
def disallowed : List Char := ['#', '<', '>', ':', '"', '/', '\\', '|', '?', '*']

/-! ## Data model -/

/-- One manifest entry (`type RedisFile struct`). -/
structure RedisFile where
  FileName : String := ""
  Folder : String := ""
  Path : String := ""
  URL : String := ""
  FileId : Int := 0
  ProjectId : Int := 0
  ProjectName : String := ""
  deriving DecidableEq, Repr

/-- A reply value of the cache client: the byte string of a stored value, or a
value of any other dynamic type. -/
inductive RedisValue where
  | bytes (b : String)
  | other
  deriving DecidableEq, Repr

/-- The pair `(result, err)` returned by `redis.Do`. -/
structure DoReply where
  result : Option RedisValue
  err : Option String
  deriving DecidableEq, Repr

/-- The fields of `*http.Response` the handler can observe. -/
structure Response where
  StatusCode : Nat
  Body : String
  deriving DecidableEq, Repr

/-- The pair `(res, err)` returned by `http.Get`; `res = none` is the nil pointer. -/
structure GetReply where
  res : Option Response
  err : Option String
  deriving DecidableEq, Repr

/-- What the collaborators of one request answer. -/
structure Env where
  /-- The call `redis.Do(command, key)`. -/
  redisDo : String → String → DoReply
  /-- The call `json.Unmarshal(bytes, &files)`: the manifest, or the decoder's error. -/
  jsonUnmarshal : String → Except String (List RedisFile)
  /-- The call `os.Open(path)`: the bytes the file will deliver, or the error. -/
  osOpen : String → Except String String
  /-- The call `http.Get(url)`. -/
  httpGet : String → GetReply

/-- The parts of `*http.Request` the handler reads; `Query` is `r.URL.Query()`. -/
structure Request where
  Method : String := "GET"
  RequestURI : String := "/"
  Query : List (String × List String) := []
  deriving DecidableEq, Repr

/-- One `zipWriter.CreateHeader(h)` call together with the bytes `io.Copy` moved
into the writer it returned. -/
structure Entry where
  Name : String
  Method : Nat
  Flags : Nat
  Data : String
  deriving DecidableEq, Repr

/-- The observable effects of the handler on `w http.ResponseWriter` and on the log. -/
structure ResponseWriter where
  /-- Status line; 200 is what net/http sends when no `WriteHeader` call is made. -/
  status : Nat := 200
  header : List (String × String) := []
  /-- Text written by `http.Error`. -/
  body : String := ""
  /-- Archive entries streamed so far, in the order written. -/
  entries : List Entry := []
  /-- Names for which `CreateHeader` returned an error: nothing was streamed for them. -/
  rejected : List String := []
  /-- The call `zipWriter.Close()` was reached. -/
  zipClosed : Bool := false
  /-- The handler goroutine ended in a run-time panic. -/
  panicked : Bool := false
  /-- Lines passed to `log.Printf` (the closing timing line is left out). -/
  log : List String := []
  deriving DecidableEq, Repr

/-! ## Manifest resolver -/

/-- The function `getFilesFromRedis` (the disabled test branch `1 == 0 && ...` never runs). -/
def getFilesFromRedis (env : Env) (ref : String) : Except String (List RedisFile) :=
  let reply := env.redisDo "GET" ("zip:" ++ ref)
  if reply.err ≠ none ∨ reply.result = none then
    .error "Access Denied (sorry your link has timed out)"
  else
    match reply.result with
    | some (.bytes resultByte) =>
      match env.jsonUnmarshal resultByte with
      | .error _ => .error ("Error decoding json: " ++ resultByte)
      | .ok files => .ok files
    | _ => .error "Error converting data stream to bytes"

/-! ## Handler -/

/-- The function `http.Error` of net/http. -/
def httpError (w : ResponseWriter) (error : String) (code : Nat) : ResponseWriter :=
  { w with
    header := (w.header.filter fun kv =>
        kv.1 ≠ "Content-Length" ∧ kv.1 ≠ "Content-Type" ∧ kv.1 ≠ "X-Content-Type-Options")
      ++ [("Content-Type", "text/plain; charset=utf-8"), ("X-Content-Type-Options", "nosniff")]
    status := code
    body := w.body ++ error ++ "\n" }

/-- A Go map index with the comma-ok form, `v, ok := r.URL.Query()[key]`. -/
def queryGet (r : Request) (key : String) : List String × Bool :=
  match r.Query.lookup key with
  | some v => (v, true)
  | none => ([], false)

/-- The function `strings.HasSuffix`. -/
def HasSuffix (s suffix : String) : Bool := suffix.data.isSuffixOf s.data

/-- Lines 120 to 129: the slice `downloadas` after the if/else. -/
def downloadasSlice (r : Request) : List String :=
  let (downloadas, ok) := queryGet r "downloadas"
  if !ok && downloadas.length > 0 then
    let d0 := sanitize (downloadas.headD "")
    downloadas.set 0 (if d0 = "" then "download.zip" else d0)
  else
    downloadas ++ ["download.zip"]

/-- Lines 147 to 150: the local `safeFileName`. -/
def safeFileName (file : RedisFile) : String :=
  let safeFileName := sanitize file.FileName
  if safeFileName = "" then "file" else safeFileName

/-- Lines 170 to 178: `zipPath` before the file name is appended. -/
def zipFolder (file : RedisFile) : String :=
  let zipPath := ""
  if file.Folder ≠ "" then
    let zipPath := zipPath ++ file.Folder
    if !HasSuffix zipPath "/" then zipPath ++ "/" else zipPath
  else
    zipPath

/-- Line 179: the final `zipPath`, the name given to the entry. -/
def zipPath (file : RedisFile) : String := zipFolder file ++ safeFileName file

/-- Result of lines 156 to 162, read together with the test `err != nil`. -/
inductive Opened where
  /-- Here `err == nil`: `rdr` will deliver `data`. -/
  | reader (data : String)
  /-- Here `err != nil` and the assignment to `rdr` went through. -/
  | failed (err : String)
  /-- Here `res` is nil and `rdr = res.Body` dereferences it. -/
  | nilDeref
  deriving DecidableEq, Repr

/-- Lines 156 to 162: open the source of one descriptor. -/
def openSource (env : Env) (file : RedisFile) : Opened :=
  if file.Path ≠ "" then
    match env.osOpen file.Path with
    | .ok data => .reader data
    | .error err => .failed err
  else
    let reply := env.httpGet file.URL
    match reply.res with
    | none => .nilDeref
    | some res =>
      match reply.err with
      | some err => .failed err
      | none => .reader res.Body

/-- The constant `zip.Deflate`. -/
def Deflate : Nat := 8

/-- Go's `len` of a string: the number of bytes of its UTF-8 encoding. -/
def len (s : String) : Nat := s.utf8ByteSize

/-- The bound `maxUint16` of `archive/zip`. -/
def maxUint16 : Nat := 65535

/-- Whether `zipWriter.CreateHeader(h)` returns a writer for the name `h.Name`.  The
library refuses a name longer than `maxUint16` bytes with `errLongName` and then
returns a nil writer.  (Its branch for names ending in "/" is never reached from
the loop, see `zipPath_getLast`.) -/
def createHeaderOk (name : String) : Bool := decide (len name ≤ maxUint16)

/-- Lines 144 to 188: the loop over the manifest.  Line 184 discards the error of
`CreateHeader`: with a nil writer `f`, `io.Copy(f, rdr)` calls `f.Write` as soon as
`rdr` delivers bytes, which panics; when `rdr` delivers none, nothing is written
and the loop goes on. -/
def loop (env : Env) : List RedisFile → ResponseWriter → ResponseWriter
  | [], w => w
  | file :: rest, w =>
    match openSource env file with
    | .nilDeref => { w with panicked := true }
    | .failed err =>
      loop env rest { w with log := w.log ++ ["Error loading \"" ++ file.Path ++ "\" - " ++ err] }
    | .reader data =>
      if createHeaderOk (zipPath file) then
        loop env rest { w with entries := w.entries ++ [⟨zipPath file, Deflate, 0x800, data⟩] }
      else if data = "" then
        loop env rest { w with rejected := w.rejected ++ [zipPath file] }
      else
        { w with rejected := w.rejected ++ [zipPath file], panicked := true }

/-- The function `handler`.  The indexings `refs[0]` and `downloadas[0]` are in range
on every path that reaches them, so `headD` never falls back on its default. -/
def handler (env : Env) (r : Request) : ResponseWriter :=
  let w : ResponseWriter := {}
  let (refs, ok) := queryGet r "ref"
  if !ok || refs.length < 1 then
    httpError w "S3 File Zipper. Pass ?ref= to use." 500
  else
    let ref := refs.headD ""
    let downloadas := downloadasSlice r
    match getFilesFromRedis env ref with
    | .error err =>
      let w := httpError w err 403
      { w with log := w.log ++ [r.Method ++ "\t" ++ r.RequestURI ++ "\t" ++ err] }
    | .ok files =>
      let w := { w with header := w.header ++
        [("Content-Disposition", "attachment; filename=\"" ++ downloadas.headD "" ++ "\"")] }
      let w := { w with header := w.header ++ [("Content-Type", "application/zip")] }
      let w := loop env files w
      if w.panicked then w else { w with zipClosed := true }

/-- Names of the entries of a response, in the order written. -/
def entryNames (w : ResponseWriter) : List String := w.entries.map Entry.Name

/-- The source of a descriptor opens: lines 156 to 162 finish with `err == nil`. -/
def opens (env : Env) (file : RedisFile) : Bool :=
  match openSource env file with
  | .reader _ => true
  | _ => false

/-! ## Concrete worlds on which the handler is evaluated -/

/-- An environment read from finite tables.  The cache holds a value under every
key and the decoder reads it as `manifest`; a path that is not on `disk` fails to
open; a URL that is not on `web` fails at the transport level, where `http.Get`
returns a nil response together with the error. -/
def tableEnv (manifest : List RedisFile) (disk : List (String × String))
    (web : List (String × GetReply)) : Env where
  redisDo := fun _ _ => ⟨some (.bytes "[ ... ]"), none⟩
  jsonUnmarshal := fun _ => .ok manifest
  osOpen := fun path =>
    match disk.lookup path with
    | some data => .ok data
    | none => .error ("open " ++ path ++ ": no such file or directory")
  httpGet := fun url =>
    match web.lookup url with
    | some reply => reply
    | none => ⟨none, some ("Get \"" ++ url ++ "\": dial tcp: lookup failed")⟩

/-- An environment whose cache holds `payload`, which the decoder rejects. -/
def malformedEnv (payload : String) : Env where
  redisDo := fun _ _ => ⟨some (.bytes payload), none⟩
  jsonUnmarshal := fun _ => .error "invalid character"
  osOpen := fun _ => .error "unused"
  httpGet := fun _ => ⟨none, some "unused"⟩

/-- An environment whose cache lookup fails with a connection error. -/
def lookupErrorEnv : Env :=
  { tableEnv [] [] [] with redisDo := fun _ _ => ⟨none, some "EOF"⟩ }

/-- An environment whose cache has no value under the key (nil reply, no error). -/
def missingKeyEnv : Env :=
  { tableEnv [] [] [] with redisDo := fun _ _ => ⟨none, none⟩ }

/-- A request `GET /?ref=k`. -/
def refRequest : Request :=
  { Method := "GET", RequestURI := "/?ref=k", Query := [("ref", ["k"])] }

/-- A request `GET /?ref=k&downloadas=a/b.zip`. -/
def downloadasRequest : Request :=
  { Method := "GET", RequestURI := "/?ref=k&downloadas=a/b.zip",
    Query := [("ref", ["k"]), ("downloadas", ["a/b.zip"])] }

/-- A descriptor with neither path nor URL, followed by a readable local file. -/
def orderManifest : List RedisFile :=
  [{ FileName := "a.txt" }, { FileName := "b.txt", Path := "/tmp/b.txt" }]

/-- The world of `orderManifest`: `/tmp/b.txt` exists, no URL answers. -/
def orderEnv : Env := tableEnv orderManifest [("/tmp/b.txt", "bbb")] []

/-- Two readable local files around a remote file whose host cannot be reached. -/
def resilienceManifest : List RedisFile :=
  [{ FileName := "a.txt", Path := "/tmp/a.txt" },
   { FileName := "b.txt", URL := "http://unreachable.invalid/b.txt" },
   { FileName := "c.txt", Path := "/tmp/c.txt" }]

/-- The world of `resilienceManifest`: both local files exist, no URL answers. -/
def resilienceEnv : Env :=
  tableEnv resilienceManifest [("/tmp/a.txt", "aaa"), ("/tmp/c.txt", "ccc")] []

/-- A readable local file filed under a nested folder. -/
def folderManifest : List RedisFile :=
  [{ FileName := "f.txt", Folder := "a/b", Path := "/tmp/f.txt" }]

/-- The world of `folderManifest`. -/
def folderEnv : Env := tableEnv folderManifest [("/tmp/f.txt", "fff")] []

/-- The manifest of scenario 6 of the specification. -/
def scenarioManifest : List RedisFile :=
  [{ FileName := "a.txt", Folder := "", Path := "/tmp/a.txt" },
   { FileName := "b/c?.txt", Folder := "x", URL := "http://bad.example/404" }]

/-- The body a server sends along with status 404. -/
def notFoundBody : String := "404 page not found\n"

/-- The world of scenario 6: `/tmp/a.txt` holds "hello" and the GET completes with
status 404 and no transport error. -/
def scenarioEnv : Env :=
  tableEnv scenarioManifest [("/tmp/a.txt", "hello")]
    [("http://bad.example/404", ⟨some ⟨404, notFoundBody⟩, none⟩)]

/-- A readable local file whose name is `n` bytes long. -/
def longFile (n : Nat) : RedisFile := { FileName := ⟨List.replicate n 'a'⟩, Path := "/tmp/big" }

/-- The world of `longFile`, followed in the manifest by a second readable file. -/
def longEnv (n : Nat) : Env :=
  tableEnv [longFile n, { FileName := "b.txt", Path := "/tmp/b.txt" }]
    [("/tmp/big", "big"), ("/tmp/b.txt", "bbb")] []

/-! ## Sanitizer: lemmas -/

theorem makeSafeFileName_eq :
    makeSafeFileName = ['#', '<', '>', ':', '"', '/', '|', '?', '*', '\\'] := by decide

theorem mem_makeSafeFileName_iff (c : Char) : c ∈ makeSafeFileName ↔ c ∈ disallowed := by
  simp only [makeSafeFileName_eq, disallowed, List.mem_cons, List.mem_singleton, List.mem_nil_iff]
  tauto

theorem replaceAll_nil (re : List Char) (l : List Char) :
    replaceAll re [] l = l.filter fun c => decide (c ∉ re) := by
  induction l with
  | nil => rfl
  | cons c cs ih =>
    by_cases h : c ∈ re
    · simp [replaceAll, h, ih]
    · simp [replaceAll, h, ih]

theorem sanitize_data (s : String) :
    (sanitize s).data = s.data.filter fun c => decide (c ∉ disallowed) := by
  have h : (sanitize s).data = replaceAll makeSafeFileName [] s.data := rfl
  rw [h, replaceAll_nil]
  apply List.filter_congr
  intro c _
  simp [mem_makeSafeFileName_iff]

theorem safeFileName_ne_empty (file : RedisFile) : safeFileName file ≠ "" := by
  unfold safeFileName
  by_cases h : sanitize file.FileName = ""
  · simp [h]
  · simp [h]

/-! ## Sanitizer: claims -/

/-- C4: `makeSafeFileName.ReplaceAllString(s, "")` is `s` filtered by "not one of the
ten characters": the kept characters are exactly the others, in their order. -/
theorem sanitize_eq_filter (s : String) :
    sanitize s = ⟨s.data.filter fun c =>
      decide (c ∉ ['#', '<', '>', ':', '"', '/', '\\', '|', '?', '*'])⟩ := by
  apply String.ext
  exact sanitize_data s

/-- C9: sanitizing twice is sanitizing once. -/
theorem sanitize_idempotent (x : String) : sanitize (sanitize x) = sanitize x := by
  apply String.ext
  rw [sanitize_data, sanitize_data, List.filter_filter]
  simp

/-- C10: a file name made only of disallowed characters (the empty name included)
sanitizes to the empty string and the handler then uses the name "file"; for every
descriptor the file-name component appended to the archive path is non-empty. -/
theorem safeFileName_fallback (file : RedisFile) :
    ((∀ c ∈ file.FileName.data, c ∈ disallowed) →
        sanitize file.FileName = "" ∧ safeFileName file = "file") ∧
      safeFileName file ≠ "" ∧
      zipPath file = zipFolder file ++ safeFileName file := by
  refine ⟨?_, safeFileName_ne_empty file, rfl⟩
  intro h
  have hs : sanitize file.FileName = "" := by
    apply String.ext
    rw [sanitize_data]
    show _ = []
    rw [List.filter_eq_nil_iff]
    intro c hc
    simpa using h c hc
  exact ⟨hs, by simp [safeFileName, hs]⟩

theorem safeFileName_fallback_witness :
    (∀ c ∈ ("?*/" : String).data, c ∈ disallowed) ∧
      sanitize "?*/" = "" ∧ safeFileName { FileName := "?*/" } = "file" :=
  ⟨by decide, (safeFileName_fallback { FileName := "?*/" }).1 (by decide)⟩

/-! ## Handler loop: lemmas -/

theorem loop_reader (env : Env) (file : RedisFile) (rest : List RedisFile)
    (w : ResponseWriter) (data : String) (h : openSource env file = .reader data)
    (hlen : len (zipPath file) ≤ maxUint16) :
    loop env (file :: rest) w =
      loop env rest { w with entries := w.entries ++ [⟨zipPath file, Deflate, 0x800, data⟩] } := by
  simp [loop, h, createHeaderOk, hlen]

/-- A name over the bound and a source that delivers bytes: the nil writer is
written to, the handler panics and the rest of the manifest is not processed. -/
theorem loop_longName (env : Env) (file : RedisFile) (rest : List RedisFile)
    (w : ResponseWriter) (data : String) (h : openSource env file = .reader data)
    (hlen : maxUint16 < len (zipPath file)) (hdata : data ≠ "") :
    loop env (file :: rest) w =
      { w with rejected := w.rejected ++ [zipPath file], panicked := true } := by
  simp [loop, h, createHeaderOk, Nat.not_le.mpr hlen, hdata]

/-- A name over the bound and a source that delivers no byte: nothing is written
for the descriptor and the loop goes on. -/
theorem loop_longName_empty (env : Env) (file : RedisFile) (rest : List RedisFile)
    (w : ResponseWriter) (h : openSource env file = .reader "")
    (hlen : maxUint16 < len (zipPath file)) :
    loop env (file :: rest) w =
      loop env rest { w with rejected := w.rejected ++ [zipPath file] } := by
  simp [loop, h, createHeaderOk, Nat.not_le.mpr hlen]

theorem loop_failed (env : Env) (file : RedisFile) (rest : List RedisFile)
    (w : ResponseWriter) (err : String) (h : openSource env file = .failed err) :
    loop env (file :: rest) w =
      loop env rest
        { w with log := w.log ++ ["Error loading \"" ++ file.Path ++ "\" - " ++ err] } := by
  simp [loop, h]

theorem loop_nilDeref (env : Env) (file : RedisFile) (rest : List RedisFile)
    (w : ResponseWriter) (h : openSource env file = .nilDeref) :
    loop env (file :: rest) w = { w with panicked := true } := by
  simp [loop, h]

/-- When no descriptor of the manifest makes `http.Get` return a nil response and
every archive path is within the bound of `CreateHeader`, the loop runs to its end
and the entry names are the archive paths of the descriptors that opened, in
manifest order. -/
theorem loop_entryNames_of_no_nilDeref (env : Env) (files : List RedisFile)
    (w : ResponseWriter) (h : ∀ f ∈ files, openSource env f ≠ .nilDeref)
    (hlen : ∀ f ∈ files, len (zipPath f) ≤ maxUint16) :
    entryNames (loop env files w) = entryNames w ++ (files.filter (opens env)).map zipPath ∧
      (loop env files w).panicked = w.panicked := by
  induction files generalizing w with
  | nil => simp [loop]
  | cons f rest ih =>
    have hrest : ∀ g ∈ rest, openSource env g ≠ .nilDeref :=
      fun g hg => h g (List.mem_cons_of_mem _ hg)
    have hlrest : ∀ g ∈ rest, len (zipPath g) ≤ maxUint16 :=
      fun g hg => hlen g (List.mem_cons_of_mem _ hg)
    have ih := fun w => ih w hrest hlrest
    have hf := h f (List.mem_cons_self _ _)
    cases hopen : openSource env f with
    | reader data =>
      rw [loop_reader env f rest w data hopen (hlen f (List.mem_cons_self _ _))]
      obtain ⟨h1, h2⟩ := ih _
      refine ⟨?_, h2⟩
      rw [h1]
      simp [entryNames, opens, hopen]
    | failed err =>
      rw [loop_failed env f rest w err hopen]
      obtain ⟨h1, h2⟩ := ih _
      refine ⟨?_, h2⟩
      rw [h1]
      simp [entryNames, opens, hopen]
    | nilDeref => exact absurd hopen hf

theorem hasSuffix_slash (s : String) :
    HasSuffix s "/" = true ↔ s.data.getLast? = some '/' := by
  unfold HasSuffix
  rw [List.isSuffixOf_iff_suffix, List.getLast?_eq_some_iff]
  constructor
  · rintro ⟨t, ht⟩
    exact ⟨t, ht.symm⟩
  · rintro ⟨t, ht⟩
    exact ⟨t, ht.symm⟩

theorem safeFileName_no_slash (file : RedisFile) :
    ∀ c ∈ (safeFileName file).data, c ≠ '/' := by
  unfold safeFileName
  by_cases h : sanitize file.FileName = ""
  · simp only [h, if_true]
    decide
  · simp only [h, if_false]
    intro c hc
    rw [sanitize_data] at hc
    have hp := (List.mem_filter.mp hc).2
    intro hslash
    subst hslash
    simp [disallowed] at hp

/-- The name given to `CreateHeader` never ends in "/": its last character is the
last character of the non-empty, slash-free `safeFileName`, so the library never
takes the name for a directory. -/
theorem zipPath_getLast (file : RedisFile) : (zipPath file).data.getLast? ≠ some '/' := by
  intro h
  have hdata : (zipPath file).data = (zipFolder file).data ++ (safeFileName file).data := rfl
  rw [hdata, List.getLast?_append] at h
  cases hl : (safeFileName file).data.getLast? with
  | none =>
    exact safeFileName_ne_empty file (String.ext (List.getLast?_eq_none_iff.mp hl))
  | some c =>
    rw [hl] at h
    have hc : c = '/' := by simpa using h
    exact safeFileName_no_slash file c (List.mem_of_getLast?_eq_some hl) hc

theorem safeFileName_of_ne (file : RedisFile) (h : sanitize file.FileName ≠ "") :
    safeFileName file = sanitize file.FileName := by
  simp [safeFileName, h]

theorem handler_of_resolver_error (env : Env) (r : Request) (ref : String)
    (rest : List String) (err : String) (href : r.Query.lookup "ref" = some (ref :: rest))
    (hres : getFilesFromRedis env ref = .error err) :
    handler env r =
      { status := 403
        header := [("Content-Type", "text/plain; charset=utf-8"),
          ("X-Content-Type-Options", "nosniff")]
        body := "" ++ err ++ "\n"
        log := [r.Method ++ "\t" ++ r.RequestURI ++ "\t" ++ err] } := by
  simp [handler, queryGet, href, hres, httpError]

theorem getFilesFromRedis_malformed (env : Env) (ref p e : String)
    (hdo : env.redisDo "GET" ("zip:" ++ ref) = ⟨some (.bytes p), none⟩)
    (hdec : env.jsonUnmarshal p = .error e) :
    getFilesFromRedis env ref = .error ("Error decoding json: " ++ p) := by
  simp [getFilesFromRedis, hdo, hdec]

theorem empty_append (s : String) : "" ++ s = s := String.ext (by simp)

/-! ## Manifest resolver: claims -/

/-- C6: a lookup that errors and a lookup that returns no value give the same
error from `getFilesFromRedis`, and the handler answers both with the same
response: status 403 (not a 5xx) carrying that message, no archive header and
no archive entry. -/
theorem resolver_failure_same (env₁ env₂ : Env) (r : Request) (ref : String)
    (rest : List String) (e : String)
    (href : r.Query.lookup "ref" = some (ref :: rest))
    (h₁ : (env₁.redisDo "GET" ("zip:" ++ ref)).err = some e)
    (h₂ : env₂.redisDo "GET" ("zip:" ++ ref) = ⟨none, none⟩) :
    getFilesFromRedis env₁ ref = .error "Access Denied (sorry your link has timed out)" ∧
      getFilesFromRedis env₂ ref = getFilesFromRedis env₁ ref ∧
      handler env₂ r = handler env₁ r ∧
      (handler env₁ r).status = 403 ∧ (handler env₁ r).status < 500 ∧
      (handler env₁ r).body = "Access Denied (sorry your link has timed out)\n" ∧
      (handler env₁ r).header =
        [("Content-Type", "text/plain; charset=utf-8"), ("X-Content-Type-Options", "nosniff")] ∧
      (handler env₁ r).entries = [] ∧ (handler env₁ r).zipClosed = false := by
  have g₁ : getFilesFromRedis env₁ ref =
      .error "Access Denied (sorry your link has timed out)" := by
    simp [getFilesFromRedis, h₁]
  have g₂ : getFilesFromRedis env₂ ref =
      .error "Access Denied (sorry your link has timed out)" := by
    simp [getFilesFromRedis, h₂]
  have r₁ := handler_of_resolver_error env₁ r ref rest _ href g₁
  have r₂ := handler_of_resolver_error env₂ r ref rest _ href g₂
  refine ⟨g₁, g₂.trans g₁.symm, r₂.trans r₁.symm, ?_⟩
  rw [r₁]
  refine ⟨rfl, ?_, ?_, rfl, rfl, rfl⟩
  · show (403 : Nat) < 500
    decide
  · show "" ++ "Access Denied (sorry your link has timed out)" ++ "\n" = _
    decide

theorem resolver_failure_same_witness :
    (lookupErrorEnv.redisDo "GET" "zip:k").err = some "EOF" ∧
      missingKeyEnv.redisDo "GET" "zip:k" = ⟨none, none⟩ ∧
      handler missingKeyEnv refRequest = handler lookupErrorEnv refRequest ∧
      (handler lookupErrorEnv refRequest).status = 403 ∧
      (handler lookupErrorEnv refRequest).entries = [] :=
  have h := resolver_failure_same lookupErrorEnv missingKeyEnv refRequest "k" [] "EOF"
    rfl rfl rfl
  ⟨rfl, rfl, h.2.2.1, h.2.2.2.1, h.2.2.2.2.2.2.2.1⟩

/-- C7, as the code has it: an undecodable payload is answered with status 403, the
two headers of `http.Error` and nothing else (no archive header), and the body
"Error decoding json: " followed by the raw payload and a newline; no entry is
written and the archive is not closed.  For two such payloads under the same key
the status and the headers agree, while the bodies agree exactly when the
payloads do. -/
theorem malformed_manifest_response (env₁ env₂ : Env) (r : Request) (ref : String)
    (rest : List String) (p₁ p₂ e₁ e₂ : String)
    (href : r.Query.lookup "ref" = some (ref :: rest))
    (h₁ : env₁.redisDo "GET" ("zip:" ++ ref) = ⟨some (.bytes p₁), none⟩)
    (d₁ : env₁.jsonUnmarshal p₁ = .error e₁)
    (h₂ : env₂.redisDo "GET" ("zip:" ++ ref) = ⟨some (.bytes p₂), none⟩)
    (d₂ : env₂.jsonUnmarshal p₂ = .error e₂) :
    (handler env₁ r).status = 403 ∧ (handler env₂ r).status = 403 ∧
      (handler env₁ r).body = "Error decoding json: " ++ p₁ ++ "\n" ∧
      (handler env₂ r).body = "Error decoding json: " ++ p₂ ++ "\n" ∧
      (handler env₁ r).header =
        [("Content-Type", "text/plain; charset=utf-8"), ("X-Content-Type-Options", "nosniff")] ∧
      (handler env₂ r).header = (handler env₁ r).header ∧
      (handler env₁ r).entries = [] ∧ (handler env₂ r).entries = [] ∧
      (handler env₁ r).rejected = [] ∧ (handler env₂ r).rejected = [] ∧
      (handler env₁ r).zipClosed = false ∧ (handler env₂ r).zipClosed = false ∧
      ((handler env₁ r).body = (handler env₂ r).body ↔ p₁ = p₂) := by
  have r₁ := handler_of_resolver_error env₁ r ref rest _ href
    (getFilesFromRedis_malformed env₁ ref p₁ e₁ h₁ d₁)
  have r₂ := handler_of_resolver_error env₂ r ref rest _ href
    (getFilesFromRedis_malformed env₂ ref p₂ e₂ h₂ d₂)
  rw [r₁, r₂]
  refine ⟨rfl, rfl, ?_, ?_, rfl, rfl, rfl, rfl, rfl, rfl, rfl, rfl, ?_⟩
  · exact congrArg (· ++ "\n") (empty_append _)
  · exact congrArg (· ++ "\n") (empty_append _)
  · show "" ++ ("Error decoding json: " ++ p₁) ++ "\n" =
      "" ++ ("Error decoding json: " ++ p₂) ++ "\n" ↔ p₁ = p₂
    constructor
    · intro h
      have h' := String.ext_iff.mp h
      simp only [String.data_append, List.append_assoc] at h'
      have h'' := List.append_cancel_right (List.append_cancel_left (List.append_cancel_left h'))
      exact String.ext h''
    · intro h
      rw [h]

theorem malformed_manifest_response_witness :
    (handler (malformedEnv "not json") refRequest).body = "Error decoding json: not json\n" ∧
      (handler (malformedEnv "not json") refRequest).header =
        [("Content-Type", "text/plain; charset=utf-8"), ("X-Content-Type-Options", "nosniff")] ∧
      ((handler (malformedEnv "not json") refRequest).body =
        (handler (malformedEnv "[1,") refRequest).body ↔ "not json" = "[1,") :=
  have h := malformed_manifest_response (malformedEnv "not json") (malformedEnv "[1,")
    refRequest "k" [] "not json" "[1," "invalid character" "invalid character"
    rfl rfl rfl rfl rfl
  ⟨h.2.2.1, h.2.2.2.2.1, h.2.2.2.2.2.2.2.2.2.2.2.2⟩

/-- C7 fails as stated: two undecodable payloads under the same key are answered
with different bodies, each carrying its payload. -/
theorem malformed_payload_reaches_client :
    (malformedEnv "not json").jsonUnmarshal "not json" = .error "invalid character" ∧
      (malformedEnv "[1,").jsonUnmarshal "[1," = .error "invalid character" ∧
      (handler (malformedEnv "not json") refRequest).body = "Error decoding json: not json\n" ∧
      (handler (malformedEnv "[1,") refRequest).body = "Error decoding json: [1,\n" ∧
      (handler (malformedEnv "not json") refRequest).body ≠
        (handler (malformedEnv "[1,") refRequest).body := by
  refine ⟨rfl, rfl, ?_, ?_, ?_⟩ <;> decide

/-! ## Handler loop: claims -/

/-- C3, as the code has it: when the source of a descriptor opens, the sanitized file
name is non-empty and the archive path is at most 65535 bytes long (the bound of
`CreateHeader`), the loop writes one entry for it and goes on; the entry is named
by the folder as given (not sanitized), a "/" unless the folder already ends in
one, and the sanitized file name; with an empty folder the name is the sanitized
file name. -/
theorem entry_name_of_opened (env : Env) (file : RedisFile) (rest : List RedisFile)
    (w : ResponseWriter) (data : String)
    (hopen : openSource env file = .reader data)
    (hname : sanitize file.FileName ≠ "")
    (hlen : len (zipPath file) ≤ maxUint16) :
    loop env (file :: rest) w =
        loop env rest
          { w with entries := w.entries ++ [⟨zipPath file, Deflate, 0x800, data⟩] } ∧
      (file.Folder = "" → zipPath file = sanitize file.FileName) ∧
      (file.Folder ≠ "" → file.Folder.data.getLast? = some '/' →
        zipPath file = file.Folder ++ sanitize file.FileName) ∧
      (file.Folder ≠ "" → file.Folder.data.getLast? ≠ some '/' →
        zipPath file = file.Folder ++ "/" ++ sanitize file.FileName) := by
  refine ⟨loop_reader env file rest w data hopen hlen, ?_, ?_, ?_⟩
  · intro h
    simp [zipPath, zipFolder, h, safeFileName_of_ne file hname, empty_append]
  · intro h hlast
    have hs : HasSuffix file.Folder "/" = true := (hasSuffix_slash _).mpr hlast
    simp [zipPath, zipFolder, h, safeFileName_of_ne file hname, empty_append, hs]
  · intro h hlast
    have hs : HasSuffix file.Folder "/" = false := by
      cases hc : HasSuffix file.Folder "/" with
      | false => rfl
      | true => exact absurd ((hasSuffix_slash _).mp hc) hlast
    simp [zipPath, zipFolder, h, safeFileName_of_ne file hname, empty_append, hs]

theorem entry_name_of_opened_witness :
    loop folderEnv folderManifest {} =
        { entries := [⟨zipPath { FileName := "f.txt", Folder := "a/b", Path := "/tmp/f.txt" },
            Deflate, 0x800, "fff"⟩] } ∧
      zipPath { FileName := "f.txt", Folder := "a/b", Path := "/tmp/f.txt" } = "a/b/f.txt" :=
  have h := entry_name_of_opened folderEnv
    { FileName := "f.txt", Folder := "a/b", Path := "/tmp/f.txt" } [] {} "fff"
    (by decide) (by decide) (by decide)
  ⟨h.1, h.2.2.2 (by decide) (by decide)⟩

/-- C3 fails as stated: for a readable file under the folder "a/b" the entry is
named "a/b/f.txt", not `sanitize(folder) + "/" + sanitize(fileName)`, which is
"ab/f.txt". -/
theorem folder_is_not_sanitized :
    folderEnv.jsonUnmarshal "[ ... ]" = .ok folderManifest ∧
      folderManifest.map (opens folderEnv) = [true] ∧
      sanitize "f.txt" ≠ "" ∧
      entryNames (handler folderEnv refRequest) = ["a/b/f.txt"] ∧
      sanitize "a/b" ++ "/" ++ sanitize "f.txt" = "ab/f.txt" ∧
      entryNames (handler folderEnv refRequest) ≠ [sanitize "a/b" ++ "/" ++ sanitize "f.txt"] := by
  refine ⟨rfl, ?_, ?_, ?_, ?_, ?_⟩ <;> decide

/-- C5, as the code has it: a remote descriptor whose GET completes without a
transport error, and whose archive path is at most 65535 bytes long (the bound of
`CreateHeader`), gets an entry under its archive path holding the response body,
whatever the status code.  In scenario 6 the archive has two entries, "a.txt"
holding "hello" and "x/bc.txt" holding the body of the 404 response. -/
theorem remote_entry_any_status :
    (∀ (env : Env) (file : RedisFile) (rest : List RedisFile) (w : ResponseWriter)
        (res : Response), file.Path = "" → env.httpGet file.URL = ⟨some res, none⟩ →
        len (zipPath file) ≤ maxUint16 →
        loop env (file :: rest) w =
          loop env rest
            { w with entries := w.entries ++ [⟨zipPath file, Deflate, 0x800, res.Body⟩] }) ∧
      (∀ (env : Env) (r : Request) (ref : String) (more : List String) (payload body : String),
        r.Query.lookup "ref" = some (ref :: more) →
        env.redisDo "GET" ("zip:" ++ ref) = ⟨some (.bytes payload), none⟩ →
        env.jsonUnmarshal payload = .ok scenarioManifest →
        env.osOpen "/tmp/a.txt" = .ok "hello" →
        env.httpGet "http://bad.example/404" = ⟨some ⟨404, body⟩, none⟩ →
        (handler env r).entries =
          [⟨"a.txt", Deflate, 0x800, "hello"⟩, ⟨"x/bc.txt", Deflate, 0x800, body⟩]) := by
  constructor
  · intro env file rest w res hpath hget hlen
    apply loop_reader _ _ _ _ _ _ hlen
    simp [openSource, hpath, hget]
  · intro env r ref more payload body href hdo hdec hopen hget
    have hres : getFilesFromRedis env ref = .ok scenarioManifest := by
      simp [getFilesFromRedis, hdo, hdec]
    have ha : openSource env { FileName := "a.txt", Folder := "", Path := "/tmp/a.txt" } =
        .reader "hello" := by
      simp [openSource, hopen]
    have hb : openSource env
        { FileName := "b/c?.txt", Folder := "x", URL := "http://bad.example/404" } =
        .reader body := by
      simp [openSource, hget]
    have hza : zipPath { FileName := "a.txt", Folder := "", Path := "/tmp/a.txt" } = "a.txt" := by
      decide
    have hzb : zipPath { FileName := "b/c?.txt", Folder := "x", URL := "http://bad.example/404" } =
        "x/bc.txt" := by
      decide
    have hla : createHeaderOk "a.txt" = true := by decide
    have hlb : createHeaderOk "x/bc.txt" = true := by decide
    simp [handler, queryGet, href, hres, scenarioManifest, loop, ha, hb, hza, hzb, hla, hlb]

theorem remote_entry_any_status_witness :
    loop scenarioEnv [{ FileName := "b/c?.txt", Folder := "x", URL := "http://bad.example/404" }] {} =
        { entries := [⟨"x/bc.txt", Deflate, 0x800, notFoundBody⟩] } ∧
      (handler scenarioEnv refRequest).entries =
        [⟨"a.txt", Deflate, 0x800, "hello"⟩, ⟨"x/bc.txt", Deflate, 0x800, notFoundBody⟩] :=
  ⟨remote_entry_any_status.1 scenarioEnv
      { FileName := "b/c?.txt", Folder := "x", URL := "http://bad.example/404" } [] {}
      ⟨404, notFoundBody⟩ rfl rfl (by decide),
    remote_entry_any_status.2 scenarioEnv refRequest "k" [] "[ ... ]" notFoundBody
      rfl rfl rfl rfl rfl⟩

/-- C5 fails as stated: in scenario 6 the GET completes with status 404 and no
transport error, and the archive has two entries, the second one holding the body
of the 404 response. -/
theorem not_found_body_is_archived :
    scenarioEnv.httpGet "http://bad.example/404" = ⟨some ⟨404, notFoundBody⟩, none⟩ ∧
      (handler scenarioEnv refRequest).entries =
        [⟨"a.txt", Deflate, 0x800, "hello"⟩, ⟨"x/bc.txt", Deflate, 0x800, notFoundBody⟩] ∧
      (handler scenarioEnv refRequest).entries ≠ [⟨"a.txt", Deflate, 0x800, "hello"⟩] := by
  refine ⟨?_, ?_, ?_⟩ <;> decide

/-- The branch of lines 122 to 126 is never taken: its guard needs a missing key and
a non-empty slice at once.  The slice is always the received values followed by the
default name, so its first element is the first received value, as received. -/
theorem downloadasSlice_eq (r : Request) :
    downloadasSlice r = (queryGet r "downloadas").1 ++ ["download.zip"] := by
  unfold downloadasSlice queryGet
  cases r.Query.lookup "downloadas" <;> simp

/-- A local file that cannot be opened is skipped and logged, and the loop goes on:
the path that tests `err` before touching the reader. -/
theorem local_failure_is_skipped :
    (handler (tableEnv resilienceManifest [("/tmp/c.txt", "ccc")]
        [("http://unreachable.invalid/b.txt", ⟨some ⟨200, "bbb"⟩, none⟩)]) refRequest) =
      { header := [("Content-Disposition", "attachment; filename=\"download.zip\""),
          ("Content-Type", "application/zip")]
        entries := [⟨"b.txt", Deflate, 0x800, "bbb"⟩, ⟨"c.txt", Deflate, 0x800, "ccc"⟩]
        zipClosed := true
        log := ["Error loading \"/tmp/a.txt\" - open /tmp/a.txt: no such file or directory"] } := by
  decide

/-- C1 on a manifest whose first descriptor has neither path nor URL and whose second
is a readable local file: `http.Get` returns a nil response, `res.Body` panics, and
no entry is written although the second source would open. -/
theorem ordering_lost_after_nil_response :
    orderManifest.map (openSource orderEnv) = [.nilDeref, .reader "bbb"] ∧
      (orderManifest.filter (opens orderEnv)).map zipPath = ["b.txt"] ∧
      entryNames (handler orderEnv refRequest) = [] ∧
      (handler orderEnv refRequest).panicked = true ∧
      (handler orderEnv refRequest).zipClosed = false := by
  refine ⟨?_, ?_, ?_, ?_, ?_⟩ <;> decide

/-- C2 on a manifest of three descriptors where only the middle one, a remote URL
whose host cannot be reached, fails: the handler panics on the nil response and
writes the first entry only, instead of the first and the third. -/
theorem remote_failure_aborts :
    resilienceManifest.map (openSource resilienceEnv) =
        [.reader "aaa", .nilDeref, .reader "ccc"] ∧
      entryNames (handler resilienceEnv refRequest) = ["a.txt"] ∧
      (handler resilienceEnv refRequest).panicked = true ∧
      (handler resilienceEnv refRequest).zipClosed = false ∧
      (handler resilienceEnv refRequest).log = [] := by
  refine ⟨?_, ?_, ?_, ?_, ?_⟩ <;> decide

/-- C8 on the request `?ref=k&downloadas=a/b.zip`: the header carries the name as
received, "a/b.zip", where sanitizing gives "ab.zip"; and an empty `downloadas`
value gives an empty file name, not the default. -/
theorem downloadas_is_not_sanitized :
    (handler folderEnv downloadasRequest).header =
        [("Content-Disposition", "attachment; filename=\"a/b.zip\""),
          ("Content-Type", "application/zip")] ∧
      sanitize "a/b.zip" = "ab.zip" ∧
      (handler folderEnv { Query := [("ref", ["k"]), ("downloadas", [""])] }).header =
        [("Content-Disposition", "attachment; filename=\"\""),
          ("Content-Type", "application/zip")] ∧
      (handler folderEnv refRequest).header =
        [("Content-Disposition", "attachment; filename=\"download.zip\""),
          ("Content-Type", "application/zip")] := by
  refine ⟨?_, ?_, ?_, ?_⟩ <;> decide


theorem handler_of_manifest (env : Env) (r : Request) (ref : String) (rest : List String)
    (files : List RedisFile) (href : r.Query.lookup "ref" = some (ref :: rest))
    (hres : getFilesFromRedis env ref = .ok files) :
    handler env r =
      if (loop env files
          { header := [("Content-Disposition",
              "attachment; filename=\"" ++ (downloadasSlice r).headD "" ++ "\""),
            ("Content-Type", "application/zip")] }).panicked
      then loop env files
          { header := [("Content-Disposition",
              "attachment; filename=\"" ++ (downloadasSlice r).headD "" ++ "\""),
            ("Content-Type", "application/zip")] }
      else
        { loop env files
          { header := [("Content-Disposition",
              "attachment; filename=\"" ++ (downloadasSlice r).headD "" ++ "\""),
            ("Content-Type", "application/zip")] } with zipClosed := true } := by
  simp [handler, queryGet, href, hres]

theorem len_replicate (n : Nat) : len ⟨List.replicate n 'a'⟩ = n := by
  show String.utf8ByteSize.go (List.replicate n 'a') = n
  induction n with
  | zero => rfl
  | succ k ih =>
    rw [List.replicate_succ]
    show String.utf8ByteSize.go (List.replicate k 'a') + Char.utf8Size 'a' = k + 1
    rw [ih]
    rfl

theorem zipPath_longFile (n : Nat) (h : 0 < n) :
    zipPath (longFile n) = ⟨List.replicate n 'a'⟩ := by
  have hs : sanitize (longFile n).FileName = ⟨List.replicate n 'a'⟩ := by
    apply String.ext
    rw [sanitize_data]
    show List.filter _ (List.replicate n 'a') = _
    rw [List.filter_replicate]
    simp [disallowed]
  have hne : sanitize (longFile n).FileName ≠ "" := by
    rw [hs]
    intro he
    have hl := congrArg len he
    rw [len_replicate] at hl
    have h0 : len "" = 0 := rfl
    omega
  show zipFolder (longFile n) ++ safeFileName (longFile n) = _
  rw [safeFileName_of_ne (longFile n) hne, hs]
  exact empty_append _

/-- A readable file whose name is longer than the bound of `CreateHeader`: the error is
discarded, the copy into the nil writer panics, and the readable file after it is
never processed. -/
theorem long_name_aborts (n : Nat) (h : maxUint16 < n) :
    handler (longEnv n) refRequest =
      { header := [("Content-Disposition", "attachment; filename=\"download.zip\""),
          ("Content-Type", "application/zip")]
        rejected := [⟨List.replicate n 'a'⟩]
        panicked := true } := by
  have hpos : 0 < n := Nat.lt_of_le_of_lt (Nat.zero_le _) h
  have hlen : maxUint16 < len (zipPath (longFile n)) := by
    rw [zipPath_longFile n hpos, len_replicate]
    exact h
  have hopen : openSource (longEnv n) (longFile n) = .reader "big" := by
    simp [openSource, longEnv, longFile, tableEnv, List.lookup]
  have hres : getFilesFromRedis (longEnv n) "k" =
      .ok [longFile n, { FileName := "b.txt", Path := "/tmp/b.txt" }] := rfl
  have hname : "attachment; filename=\"" ++ (downloadasSlice refRequest).headD "" ++ "\"" =
      "attachment; filename=\"download.zip\"" := by decide
  have hloop := loop_longName (longEnv n) (longFile n)
    [{ FileName := "b.txt", Path := "/tmp/b.txt" }]
    { header := [("Content-Disposition", "attachment; filename=\"download.zip\""),
        ("Content-Type", "application/zip")] } "big" hopen hlen (by decide)
  rw [zipPath_longFile n hpos] at hloop
  rw [handler_of_manifest (longEnv n) refRequest "k" [] _ rfl hres, hname, hloop]
  rfl

end LocalZipper
